import Mathlib

/-!
Verification of the pyaedt `edb_grpc` stackup / cutout core.

The development shallowly embeds the algorithmic core of
`src/pyaedt/edb_grpc/edb.py` (`_create_cutout_multithread` and its local
helpers `clean_prim` / `pins_clean`) and of
`src/pyaedt/edb_grpc/core/stackup.py` (`add_layer`, `remove_layer`,
`flip_design`, `stackup_limits`, `get_layout_thickness`,
`create_symmetric_stackup`).

Machine real arithmetic is embedded as exact rational arithmetic (`ℚ`).
The underlying EDB store (polygon booleans, layer-collection enumeration,
elevation resolution) is out of scope of the repository; where a claim
depends on it, the behaviour is modelled from the spec and marked
`Modelled from the spec:` in the doc comment of the definition.
-/

namespace PyaedtEdb

/-! ## Cutout engine (`edb.py`, `_create_cutout_multithread`) -/

/-- A padstack instance as seen by the cutout code: only its net name is
inspected; `uid` stands for the object identity used by `delete()`. -/
structure PadstackInstance where
  uid : Nat
  netName : String
deriving DecidableEq, Repr

/-- A (non-void) primitive as seen by the cutout code.  `pdata` is the
result of `GetPolygonData()`; `voids` holds the polygon data of the
primitive's void children (`get_polygon_data(void)` in the source is a
plain accessor, so the voids are stored directly as polygon data). -/
structure Primitive (Poly : Type) where
  uid : Nat
  netName : String
  layerName : String
  isVoid : Bool
  pdata : Poly
  voids : List Poly
deriving DecidableEq, Repr

/-- The polygon engine of the backing EDB store, abstract over the polygon
type.  `interType a b` is `a.GetIntersectionType(b)` (0 = disjoint,
2 = `b` contained in `a`, other codes = other overlap kinds),
`intersectPolys a b` is `list(a.Intersect(b))`, `subtractPolys p vs` is the
void subtraction `subtract` helper, `isNull` is `IsNull()` and
`inPolygonSimple i p` is `i.in_polygon(p, simple_check=True)`. -/
structure EdbOps (Poly : Type) where
  interType : Poly → Poly → Nat
  intersectPolys : Poly → Poly → List Poly
  subtractPolys : Poly → List Poly → List Poly
  isNull : Poly → Bool
  inPolygonSimple : PadstackInstance → Poly → Bool

/-- One entry of the `poly_to_create` work list:
`[polys_clean, prim_1.layer_name, net, void_to_append]`. -/
structure CreateSpec (Poly : Type) where
  poly : Poly
  layerName : String
  netName : String
  voidsToAppend : List Poly
deriving DecidableEq, Repr

/-- The void classification loop of `clean_prim` (edb.py:1644-1651):
splits the voids of the primitive into the pair
`(list_void, void_to_subtract)` relative to one intersection piece `p`:
`int_data2 > 2 or int_data2 == 1` sends the void to `void_to_subtract`,
`int_data2 == 2` (void fully inside the piece) to `list_void`, any other
code drops the void. -/
def classifyVoids {Poly : Type} (ops : EdbOps Poly) (p : Poly) (voids : List Poly) :
    List Poly × List Poly :=
  voids.foldl
    (fun acc void =>
      let i := ops.interType p void
      if 2 < i || i == 1 then (acc.1, acc.2 ++ [void])
      else if i == 2 then (acc.1 ++ [void], acc.2)
      else acc)
    ([], [])

/-- Handling of one non-null intersection piece `p` inside `clean_prim`
(edb.py:1640-1663): returns the `poly_to_create` entries contributed by
`p`.  Null pieces contribute nothing (`continue`). -/
def cleanPrimPiece {Poly : Type} (ops : EdbOps Poly) (prim : Primitive Poly) (p : Poly) :
    List (CreateSpec Poly) :=
  if ops.isNull p then []
  else if prim.voids.isEmpty then [⟨p, prim.layerName, prim.netName, []⟩]
  else
    let c := classifyVoids ops p prim.voids
    if c.2.isEmpty then [⟨p, prim.layerName, prim.netName, c.1⟩]
    else
      (ops.subtractPolys p c.2).foldl
        (fun acc polysClean =>
          if ops.isNull polysClean then acc
          else acc ++ [⟨polysClean, prim.layerName, prim.netName,
            c.1.filter (fun v => ops.interType polysClean v == 2)⟩])
        []

/-- `clean_prim` (edb.py:1629-1665) as a pure classification: given the
clip polygon, returns whether the primitive is appended to
`prims_to_delete` and the list of `poly_to_create` entries it produces.
`int_data == 0`: delete, nothing created.  `int_data == 2`: untouched.
Otherwise: the intersection pieces are turned into create requests and
the original primitive is deleted. -/
def clean_prim {Poly : Type} (ops : EdbOps Poly) (clip : Poly) (prim : Primitive Poly) :
    Bool × List (CreateSpec Poly) :=
  let intData := ops.interType clip prim.pdata
  if intData == 0 then (true, [])
  else if intData != 2 then
    let listPoly := ops.intersectPolys clip prim.pdata
    (true, listPoly.foldl (fun acc p => acc ++ cleanPrimPiece ops prim p) [])
  else (false, [])

/-- `pins_clean` (edb.py:1667-1669): a padstack instance is marked for
deletion exactly when the simple in-polygon check fails. -/
def pins_clean {Poly : Type} (ops : EdbOps Poly) (clip : Poly) (pinst : PadstackInstance) :
    Bool :=
  !(ops.inPolygonSimple pinst clip)

/-- The mutable layout state touched by the cutout (nets, padstack
instances, primitives; components are only pruned afterwards and carry no
geometry relevant to the claims). -/
structure Layout (Poly : Type) where
  nets : List String
  pinsts : List PadstackInstance
  prims : List (Primitive Poly)
deriving Repr

/-- Result of the net clean-up phase of `_create_cutout_multithread`
(edb.py:1570-1591): the effective reference and union net lists, the
retained classification work lists and the layout after the off-net
deletions. -/
structure CutoutSelect (Poly : Type) where
  allList : List String
  refList : List String
  referencePinsts : List PadstackInstance
  referencePrims : List (Primitive Poly)
  layoutAfter : Layout Poly
deriving Repr

/-- Net clean-up phase of `_create_cutout_multithread` (edb.py:1570-1591).
With a custom extent the signal nets are appended to the reference list
and the union is that list; otherwise the union is
`signal_list + reference_list`.  Every net, padstack instance and
primitive whose net is not in the union is deleted; instances and
non-void primitives of reference nets are collected for classification. -/
def cutoutSelect {Poly : Type} (layout : Layout Poly)
    (signalList referenceList : List String) (customExtent : Bool) :
    CutoutSelect Poly :=
  let refList := if customExtent then referenceList ++ signalList else referenceList
  let allList := if customExtent then referenceList ++ signalList
                 else signalList ++ referenceList
  { allList := allList
    refList := refList
    referencePinsts :=
      layout.pinsts.filter (fun i => allList.contains i.netName &&
        refList.contains i.netName)
    referencePrims :=
      layout.prims.filter (fun p => allList.contains p.netName &&
        refList.contains p.netName && !p.isVoid)
    layoutAfter :=
      { nets := layout.nets.filter (fun n => allList.contains n)
        pinsts := layout.pinsts.filter (fun i => allList.contains i.netName)
        prims := layout.prims.filter (fun p => allList.contains p.netName) } }

/-- Resolution of the clip region (edb.py:1595-1608): either the custom
extent or the computed expansion of the signal nets (`_create_extent`,
whose geometric output is abstracted as an optional polygon). -/
def resolveExtent {Poly : Type} (customExtent computedExtent : Option Poly) :
    Option Poly :=
  match customExtent with
  | some p => some p
  | none => computedExtent

/-- `_create_cutout_multithread` (edb.py:1544-1705) as a state
transformer.  The thread pool performs only the side-effect-free
classifications (`pins_clean`, `clean_prim`) against the pre-deletion
snapshot; deletions and creations are applied afterwards, which is
represented by computing the full classification lists before any edit.
Returns the boolean result together with the final layout. -/
def create_cutout_multithread {Poly : Type} (ops : EdbOps Poly) (layout : Layout Poly)
    (signalList referenceList : List String)
    (customExtent computedExtent : Option Poly) : Bool × Layout Poly :=
  let sel := cutoutSelect layout signalList referenceList customExtent.isSome
  match resolveExtent customExtent computedExtent with
  | none => (false, sel.layoutAfter)
  | some clip =>
    if ops.isNull clip then (false, sel.layoutAfter)
    else
      let pinsToDelete := sel.referencePinsts.filter (fun i => pins_clean ops clip i)
      let pinsts2 := sel.layoutAfter.pinsts.filter
        (fun i => !(pinsToDelete.any (fun d => d.uid == i.uid)))
      let cleaned := sel.referencePrims.map (fun p => (p, clean_prim ops clip p))
      let primsToDelete := (cleaned.filter (fun pc => pc.2.1)).map (fun pc => pc.1)
      let polyToCreate := cleaned.foldl (fun acc pc => acc ++ pc.2.2) []
      let freshUid := (layout.prims.map (fun p => p.uid)).foldl max 0 + 1
      let created := (List.range polyToCreate.length).zip polyToCreate |>.map
        (fun iq => { uid := freshUid + iq.1, netName := iq.2.netName,
                     layerName := iq.2.layerName, isVoid := false,
                     pdata := iq.2.poly, voids := iq.2.voidsToAppend : Primitive Poly })
      let prims3 := (sel.layoutAfter.prims ++ created).filter
        (fun q => !(primsToDelete.any (fun d => d.uid == q.uid)))
      (true, { nets := sel.layoutAfter.nets, pinsts := pinsts2, prims := prims3 })

/-! ## Stackup (`core/stackup.py`) -/

/-- Layer kinds occurring in the embedded operations.  `signal` and
`dielectric` are the stackup kinds; the remaining kinds stand for the
non-stackup layer types of `_create_nonstackup_layer`. -/
inductive LayerKind where
  | signal
  | dielectric
  | conducting
  | silkscreen
  | user
  | undefinedKind
deriving DecidableEq, Repr

/-- `Edb.Cell.TopBottomAssociation` restricted to the values the embedded
code distinguishes: `TopAssociated`, `BottomAssociated` and the residual
associations (`TopBottomAssociated` / invalid), which `flip_design`
treats uniformly in its `else` branch. -/
inductive TopBottomAssoc where
  | topAssoc
  | bottomAssoc
  | bothAssoc
deriving DecidableEq, Repr

/-- A stackup or non-stackup layer.  Elevations and thicknesses are in
meters (`ℚ` embeds the machine reals exactly).  `upperRefName` and
`lowerRefName` are the via reference layers (`GetRefLayerName(True)` /
`GetRefLayerName(False)`), meaningful only when `isVia` is set. -/
structure Layer where
  name : String
  kind : LayerKind
  thickness : ℚ
  lowerElevation : ℚ
  material : String
  fillMaterial : String
  isNegative : Bool
  etchFactor : Option ℚ
  roughnessEnabled : Bool
  isVia : Bool
  assoc : TopBottomAssoc
  upperRefName : String
  lowerRefName : String
deriving DecidableEq, Repr

/-- `GetUpperElevation`: lower elevation plus thickness. -/
def Layer.upperElevation (l : Layer) : ℚ :=
  l.lowerElevation + l.thickness

/-- `IsStackupLayer`: signal and dielectric layers form the stackup set. -/
def Layer.isStackup (l : Layer) : Bool :=
  l.kind == .signal || l.kind == .dielectric

/-- `LayerCollectionMode`. -/
inductive StackupMode where
  | laminate
  | overlapping
  | multiZone
deriving DecidableEq, Repr

/-- Modelled from the spec: the EDB `LayerCollection` enumeration.  The
ordered layer list is kept bottom-to-top (index 0 = bottom layer), the
order §4.1 requires the caller to keep consistent with elevation order
(`get_layout_thickness` reads index 0 as the bottom layer, and the §8
symmetric-stackup scenario fixes the sign of the thickness under this
convention). -/
structure LayerCollection where
  layers : List Layer
  mode : StackupMode
deriving DecidableEq, Repr

/-- The stackup-layer sub-list (`stackup_layers`), in collection order. -/
def stackupLayersList (lc : LayerCollection) : List Layer :=
  lc.layers.filter (fun l => l.isStackup)

/-- The signal-layer sub-list (`signal_layers`), in collection order. -/
def signalLayersList (lc : LayerCollection) : List Layer :=
  lc.layers.filter (fun l => l.kind == .signal)

/-- Upper elevation of the current stackup top (`0` for an empty
stackup); used to derive the elevation of a layer stacked on top. -/
def topElevation (lc : LayerCollection) : ℚ :=
  (stackupLayersList lc).foldl (fun m l => max m l.upperElevation) 0

/-- Lower elevation of the current stackup bottom (`0` for an empty
stackup); used to derive the elevation of a layer stacked below. -/
def bottomElevation (lc : LayerCollection) : ℚ :=
  match stackupLayersList lc with
  | [] => 0
  | x :: xs => xs.foldl (fun m l => min m l.lowerElevation) x.lowerElevation

/-- Modelled from the spec: `LayerCollection.AddLayerTop` — the new layer
is stacked on top (§4.1 insertion method `top`), its elevation resolved
from the current stack (§2 "elevation-resolved layer collection").
Non-stackup layers carry no elevation (§3). -/
def addLayerTop (lc : LayerCollection) (l : Layer) : LayerCollection :=
  if l.isStackup then
    { lc with layers := lc.layers ++ [{ l with lowerElevation := topElevation lc }] }
  else { lc with layers := lc.layers ++ [l] }

/-- Modelled from the spec: `LayerCollection.AddLayerBottom` — the new
layer is stacked at the bottom (§4.1 insertion method `bottom`), its
elevation resolved from the current stack. -/
def addLayerBottom (lc : LayerCollection) (l : Layer) : LayerCollection :=
  if l.isStackup then
    { lc with layers :=
        { l with lowerElevation := bottomElevation lc - l.thickness } :: lc.layers }
  else { lc with layers := l :: lc.layers }

/-- Modelled from the spec: `LayerCollection.AddLayerAbove` — insertion
right above the base layer (§4.1 `above(base)`), elevation resolved from
the base; the collection is unchanged when the base layer is absent. -/
def addLayerAbove (lc : LayerCollection) (l : Layer) (base : String) : LayerCollection :=
  match lc.layers.findIdx? (fun x => x.name == base) with
  | none => lc
  | some i =>
    let baseLayer := (lc.layers.get? i).getD l
    { lc with layers :=
        lc.layers.take (i + 1) ++
          [{ l with lowerElevation := baseLayer.upperElevation }] ++
          lc.layers.drop (i + 1) }

/-- Modelled from the spec: `LayerCollection.AddLayerBelow` — insertion
right below the base layer (§4.1 `below(base)`); the collection is
unchanged when the base layer is absent. -/
def addLayerBelow (lc : LayerCollection) (l : Layer) (base : String) : LayerCollection :=
  match lc.layers.findIdx? (fun x => x.name == base) with
  | none => lc
  | some i =>
    let baseLayer := (lc.layers.get? i).getD l
    { lc with layers :=
        lc.layers.take i ++
          [{ l with lowerElevation := baseLayer.lowerElevation - l.thickness }] ++
          lc.layers.drop i }

/-- Modelled from the spec: `LayerCollection.AddStackupLayerAtElevation` —
explicit elevation-based insertion (§4.1 `at_elevation`, Overlapping
semantics): the layer keeps its elevation and is inserted at the position
its lower elevation dictates in the bottom-to-top order. -/
def addStackupLayerAtElevation : List Layer → Layer → List Layer
  | [], l => [l]
  | x :: xs, l =>
    if l.lowerElevation < x.lowerElevation then l :: x :: xs
    else x :: addStackupLayerAtElevation xs l

/-- The stackup editing state: the active layer collection and the
material library (a name list; lookup is what `add_layer` consumes). -/
structure StackupState where
  lc : LayerCollection
  materials : List String
deriving Repr

/-- Names of all layers (`self.layers` keys over `AllLayerSet`). -/
def layerNames (st : StackupState) : List String :=
  st.lc.layers.map (fun l => l.name)

/-- The case-insensitive material lookup of `add_layer`
(stackup.py:522,531-540): `materials_lower = {m.lower(): m}`; a hit
substitutes the canonical name, a miss only logs and keeps the requested
name. -/
def resolveMaterial (mats : List String) (m : String) : String :=
  match mats.find? (fun x => x.toLower == m.toLower) with
  | some x => x
  | none => m

/-- `_set_layout_stackup` (stackup.py:358-412) restricted to the add
operations the embedded callers use; an unrecognized operation (such as
`"non_stackup"`, which matches none of the branches) leaves the
collection unchanged, exactly as the fall-through to
`SetLayerCollection(_lc)` does. -/
def setLayoutStackup (lc : LayerCollection) (layerClone : Layer)
    (operation : String) (baseLayer : Option String) : LayerCollection :=
  if operation == "insert_below" then addLayerBelow lc layerClone (baseLayer.getD "")
  else if operation == "insert_above" then addLayerAbove lc layerClone (baseLayer.getD "")
  else if operation == "add_on_top" then addLayerTop lc layerClone
  else if operation == "add_on_bottom" then addLayerBottom lc layerClone
  else if operation == "add_at_elevation" then
    { lc with layers := addStackupLayerAtElevation lc.layers layerClone }
  else lc

/-- `_create_stackup_layer` (stackup.py:414-429): a fresh signal or
dielectric layer with the given thickness and zero lower elevation. -/
def createStackupLayer (layerName : String) (thickness : ℚ)
    (layerType : String) : Layer :=
  { name := layerName
    kind := if layerType == "signal" then .signal else .dielectric
    thickness := thickness
    lowerElevation := 0
    material := ""
    fillMaterial := ""
    isNegative := false
    etchFactor := none
    roughnessEnabled := false
    isVia := false
    assoc := .bothAssoc
    upperRefName := ""
    lowerRefName := "" }

/-- The new-layer construction inside `add_layer` (stackup.py:543-559):
a stackup layer with the resolved material, fill material (signal layers
only), negativity, an explicit elevation only for `add_at_elevation`,
and the post-creation etch-factor / roughness settings. -/
def buildStackupLayer (layer_name : String) (thickness : ℚ)
    (layer_type method material fillMaterial : String) (is_negative : Bool)
    (etch_factor : Option ℚ) (enable_roughness : Bool)
    (elevation : Option ℚ) : Layer :=
  let base := createStackupLayer layer_name thickness layer_type
  let base := { base with material := material }
  let base := if layer_type != "dielectric" then
      { base with fillMaterial := fillMaterial } else base
  let base := { base with isNegative := is_negative }
  let base :=
    match method == "add_at_elevation", elevation with
    | true, some e => { base with lowerElevation := e }
    | _, _ => base
  { base with etchFactor := etch_factor, roughnessEnabled := enable_roughness }

/-- `add_layer` (stackup.py:470-564).  Returns `none` for the falsy
`False` of the duplicate-name rejection, otherwise the updated state
(standing for the truthy `LayerEdbClass`).  An unknown material or fill
material is only logged (stackup.py:531-540): the name is kept and the
layer is still created.  For non-stackup layer types the created layer is
handed to `_set_layout_stackup` with the unhandled `"non_stackup"`
operation, so the collection is not changed (source behaviour). -/
def add_layer (st : StackupState) (layer_name : String)
    (base_layer : Option String := none) (method : String := "add_on_top")
    (layer_type : String := "signal") (material : String := "copper")
    (fillMaterial : String := "fr4_epoxy") (thickness : ℚ := 35/1000000)
    (etch_factor : Option ℚ := none) (is_negative : Bool := false)
    (enable_roughness : Bool := false) (elevation : Option ℚ := none) :
    Option StackupState :=
  if (layerNames st).contains layer_name then none
  else
    let material := if material == "" then
        (if layer_type == "signal" then "copper" else "fr4_epoxy") else material
    let fillMaterial := if fillMaterial == "" then "fr4_epoxy" else fillMaterial
    let material := resolveMaterial st.materials material
    let fillMaterial :=
      if layer_type != "dielectric" then resolveMaterial st.materials fillMaterial
      else fillMaterial
    if layer_type == "signal" || layer_type == "dielectric" then
      let newLayer := buildStackupLayer layer_name thickness layer_type method
        material fillMaterial is_negative etch_factor enable_roughness elevation
      let lc1 := setLayoutStackup st.lc newLayer method base_layer
      let lc2 :=
        if lc1.layers.length == st.lc.layers.length then
          setLayoutStackup lc1 newLayer method base_layer
        else lc1
      some { st with lc := lc2 }
    else
      some st

/-- `remove_layer` (stackup.py:566-585): a fresh collection receives
every enumerated layer whose name differs via `AddLayerBottom`, and the
result of the commit is returned.  Modelled from the spec: the
`SetLayerCollection` commit is the atomic handle swap of §4.2/§9 and
reports success. -/
def remove_layer (st : StackupState) (name : String) : Bool × StackupState :=
  let newLc := st.lc.layers.foldl
    (fun acc lyr => if lyr.name == name then acc else addLayerBottom acc lyr)
    { layers := [], mode := .laminate }
  (true, { st with lc := newLc })

/-- `get_layout_thickness` (stackup.py:878-891): bottom layer is the
first stackup layer in collection order, top layer the last;
`none` when the stackup is empty (the Python would raise). -/
def get_layout_thickness (lc : LayerCollection) : Option ℚ :=
  match stackupLayersList lc with
  | [] => none
  | l :: rest =>
    let top := rest.getLastD l
    some (top.lowerElevation + top.thickness - l.lowerElevation)

/-- The layer with maximal lower elevation among a non-empty filtered
set (first layer wins ties), and the one with minimal lower elevation. -/
def topBottomOf : List Layer → Option (Layer × Layer)
  | [] => none
  | x :: xs =>
    some (xs.foldl (fun b l => if b.lowerElevation < l.lowerElevation then l else b) x,
          xs.foldl (fun b l => if l.lowerElevation < b.lowerElevation then l else b) x)

/-- `stackup_limits` (stackup.py:732-752).  Modelled from the spec: the
external `GetTopBottomStackupLayers` determines top and bottom by
max/min elevation among the filtered layer set (§4.1) and reports each
layer's name and elevation. -/
def stackup_limits (lc : LayerCollection) (onlyMetals : Bool) :
    Option (String × ℚ × String × ℚ) :=
  let fl := if onlyMetals then signalLayersList lc else stackupLayersList lc
  (topBottomOf fl).map (fun tb =>
    (tb.1.name, tb.1.lowerElevation, tb.2.name, tb.2.lowerElevation))

/-- `create_symmetric_stackup` (stackup.py:104-224) with the loop over
`np.arange(layer_count/2, 1, -1)` unfolded to the descending index list
`[layer_count/2, …, 2]`.  Failed `add_layer` calls are ignored (the
source discards their return value). -/
def create_symmetric_stackup (st : StackupState) (layer_count : Nat)
    (inner_layer_thickness : ℚ := 17/1000000)
    (outer_layer_thickness : ℚ := 50/1000000)
    (dielectric_thickness : ℚ := 100/1000000)
    (dielectric_material : String := "fr4_epoxy")
    (soldermask : Bool := true)
    (soldermask_thickness : ℚ := 20/1000000) : Bool × StackupState :=
  if layer_count % 2 != 0 then (false, st)
  else
    let st := (add_layer st "BOT" none "add_on_top" "signal" "copper"
      dielectric_material outer_layer_thickness).getD st
    let st := (add_layer st ("D" ++ toString (layer_count / 2)) none "add_on_top"
      "dielectric" "fr4_epoxy" dielectric_material dielectric_thickness).getD st
    let st := (add_layer st "TOP" none "add_on_top" "signal" "copper"
      dielectric_material outer_layer_thickness).getD st
    let st :=
      if soldermask then
        let st := (add_layer st "SMT" none "add_on_top" "dielectric" "solder_mask"
          dielectric_material soldermask_thickness).getD st
        let st := (add_layer st "SMB" none "add_on_bottom" "dielectric" "solder_mask"
          dielectric_material soldermask_thickness).getD st
        let newLayers := st.lc.layers.map (fun l =>
          if l.name == "TOP" || l.name == "BOT" then
            { l with fillMaterial := "solder_mask" } else l)
        { st with lc := { st.lc with layers := newLayers } }
      else st
    let idxs := (List.range (layer_count / 2 - 1)).map (fun i => layer_count / 2 - i)
    let st := idxs.foldl
      (fun st k =>
        let st := (add_layer st ("L" ++ toString k) (some "TOP") "insert_below"
          "signal" "copper" dielectric_material inner_layer_thickness).getD st
        let st := (add_layer st ("D" ++ toString (k - 1)) (some "TOP") "insert_below"
          "dielectric" dielectric_material dielectric_material
          dielectric_thickness).getD st
        let st := (add_layer st ("L" ++ toString (layer_count - k + 1)) (some "BOT")
          "insert_above" "signal" "copper" dielectric_material
          inner_layer_thickness).getD st
        let st := (add_layer st ("D" ++ toString (layer_count - k + 1)) (some "BOT")
          "insert_above" "dielectric" dielectric_material dielectric_material
          dielectric_thickness).getD st
        st)
      st
    (true, st)

/-! ## `flip_design` (stackup.py:754-876) -/

/-- Whether `p` occurs at the head of `t` (character lists). -/
def charsAt : List Char → List Char → Bool
  | [], _ => true
  | _ :: _, [] => false
  | p :: ps, t :: ts => p == t && charsAt ps ts

/-- Whether `p` occurs anywhere inside `t` (character lists). -/
def charsHas (p : List Char) : List Char → Bool
  | [] => charsAt p []
  | t :: ts => charsAt p (t :: ts) || charsHas p ts

/-- The Python substring test `"RadBox" in layer.GetName()`. -/
def containsRadBox (s : String) : Bool :=
  charsHas "RadBox".data s.data

/-- One step of the max-elevation scan of `flip_design`
(stackup.py:776-780): a stackup layer whose name does not contain
`"RadBox"` contributes its lower and upper elevations in micrometers to
the running maximum. -/
def maxStep (m : ℚ) (l : Layer) : ℚ :=
  if l.isStackup && !(containsRadBox l.name) then
    max m (max (l.lowerElevation * 1000000) (l.upperElevation * 1000000))
  else m

/-- The max-elevation scan of `flip_design` (stackup.py:775-780): over the
stackup layers whose name does not contain `"RadBox"`, the running
maximum (seeded with `0.0`) of lower and upper elevations converted to
micrometers. -/
def maxElevationUm (layers : List Layer) : ℚ :=
  layers.foldl maxStep 0

/-- The `else` branch of the association toggle (stackup.py:793-796):
`TopAssociated` becomes `BottomAssociated`, anything else becomes
`TopAssociated`. -/
def flipAssoc : TopBottomAssoc → TopBottomAssoc
  | .topAssoc => .bottomAssoc
  | _ => .topAssoc

/-- The per-layer remap of `flip_design` (stackup.py:788-797): the new
lower elevation is `max_elevation - upper_elevation` computed in
micrometers and written back through the `"{}um"` value (division by
`10^6`), and the top/bottom association is toggled. -/
def flipLayer (maxUm : ℚ) (l : Layer) : Layer :=
  { l with
    lowerElevation := (maxUm - l.upperElevation * 1000000) / 1000000
    assoc := flipAssoc l.assoc }

/-- The via-layer pass of `flip_design` (stackup.py:799-827): each via
layer swaps its reference layers (looked up by name in the old
collection; a missing reference is the Python `[0]` IndexError, caught by
the enclosing `except`, hence `none`), takes its new lower elevation from
the flipped position of its former upper reference layer and is inserted
into the new collection at its elevation. -/
def flipVias (oldLayers : List Layer) : List Layer → List Layer → Option (List Layer)
  | acc, [] => some acc
  | acc, v :: vs =>
    match oldLayers.find? (fun x => x.name == v.upperRefName) with
    | none => none
    | some upperRef =>
      match oldLayers.find? (fun x => x.name == v.lowerRefName) with
      | none => none
      | some lowerRef =>
        match acc.find? (fun x => x.name == v.upperRefName) with
        | none => none
        | some refFlipped =>
          flipVias oldLayers
            (addStackupLayerAtElevation acc
              { v with
                upperRefName := lowerRef.name
                lowerRefName := upperRef.name
                lowerElevation := refFlipped.lowerElevation + refFlipped.thickness })
            vs

/-- `flip_design` (stackup.py:754-876), the layer-collection rebuild.
Every non-via stackup layer whose name does not contain `"RadBox"` is
flipped and inserted at its new elevation; via layers are remapped
afterwards; non-stackup layers are appended unchanged (`AddLayers`).
`none` is the broad `except: return False`. -/
def flip_design (lc : LayerCollection) : Option LayerCollection :=
  let maxUm := maxElevationUm lc.layers
  let nonStackup := lc.layers.filter (fun l => !l.isStackup)
  let mains := lc.layers.filter
    (fun l => l.isStackup && !(containsRadBox l.name) && !l.isVia)
  let newMain := mains.foldl
    (fun acc l => addStackupLayerAtElevation acc (flipLayer maxUm l)) []
  let vias := lc.layers.filter (fun l => l.isStackup && l.isVia)
  match flipVias lc.layers newMain vias with
  | none => none
  | some withVias => some { layers := withVias ++ nonStackup, mode := lc.mode }

/-! ## Proofs about the cutout classification (`clean_prim`) -/

section CutoutProofs

variable {Poly : Type}

lemma classifyVoids_fst_aux (ops : EdbOps Poly) (p : Poly) (voids : List Poly) :
    ∀ (acc : List Poly × List Poly), (∀ v ∈ acc.1, ops.interType p v = 2) →
      ∀ v ∈ (voids.foldl
        (fun acc void =>
          let i := ops.interType p void
          if 2 < i || i == 1 then (acc.1, acc.2 ++ [void])
          else if i == 2 then (acc.1 ++ [void], acc.2)
          else acc) acc).1, ops.interType p v = 2 := by
  induction voids with
  | nil => intro acc h; exact h
  | cons w ws ih =>
    intro acc h
    rw [List.foldl_cons]
    apply ih
    by_cases h1 : (decide (2 < ops.interType p w) || (ops.interType p w == 1)) = true
    · simpa [h1] using h
    · by_cases h2 : (ops.interType p w == 2) = true
      · simp only [h1, h2, if_true, if_false, Bool.false_eq_true]
        intro v hv
        rcases List.mem_append.mp hv with hv | hv
        · exact h v hv
        · rw [List.mem_singleton.mp hv]
          simpa using h2
      · simpa [h1, h2] using h

/-- Every void in the `list_void` bucket of `classifyVoids` is fully
contained (`int_data2 == 2`) in the piece. -/
lemma classifyVoids_fst (ops : EdbOps Poly) (p : Poly) (voids : List Poly) :
    ∀ v ∈ (classifyVoids ops p voids).1, ops.interType p v = 2 := by
  unfold classifyVoids
  exact classifyVoids_fst_aux ops p voids ([], []) (by intro v hv; simp at hv)

lemma mem_foldl_append_guard {α β : Type _} (f : α → β) (g : α → Bool)
    (l : List α) :
    ∀ (init : List β) (x : β),
      x ∈ l.foldl (fun acc a => if g a then acc else acc ++ [f a]) init →
      x ∈ init ∨ ∃ a ∈ l, g a = false ∧ x = f a := by
  induction l with
  | nil => intro init x hx; exact Or.inl hx
  | cons a as ih =>
    intro init x hx
    rw [List.foldl_cons] at hx
    rcases ih _ x hx with hmem | ⟨b, hb, hgb, hxb⟩
    · by_cases hg : g a = true
      · rw [if_pos hg] at hmem
        exact Or.inl hmem
      · rw [if_neg hg] at hmem
        rcases List.mem_append.mp hmem with hmem | hmem
        · exact Or.inl hmem
        · refine Or.inr ⟨a, List.mem_cons_self a as, ?_, List.mem_singleton.mp hmem⟩
          exact Bool.not_eq_true _ ▸ eq_false_of_ne_true hg
    · exact Or.inr ⟨b, List.mem_cons_of_mem a hb, hgb, hxb⟩

/-- Every create request produced for one intersection piece preserves
the net and layer of the original primitive and only re-attaches voids
fully contained in the created polygon. -/
lemma cleanPrimPiece_spec (ops : EdbOps Poly) (prim : Primitive Poly) (p : Poly) :
    ∀ spec ∈ cleanPrimPiece ops prim p,
      spec.netName = prim.netName ∧ spec.layerName = prim.layerName ∧
        ∀ v ∈ spec.voidsToAppend, ops.interType spec.poly v = 2 := by
  intro spec hspec
  unfold cleanPrimPiece at hspec
  by_cases hnull : ops.isNull p = true
  · simp [hnull] at hspec
  · rw [if_neg hnull] at hspec
    by_cases hvoids : prim.voids.isEmpty = true
    · rw [if_pos hvoids, List.mem_singleton] at hspec
      subst hspec
      exact ⟨rfl, rfl, by intro v hv; simp at hv⟩
    · rw [if_neg hvoids] at hspec
      by_cases hsub : (classifyVoids ops p prim.voids).2.isEmpty = true
      · rw [if_pos hsub, List.mem_singleton] at hspec
        subst hspec
        exact ⟨rfl, rfl, fun v hv => classifyVoids_fst ops p prim.voids v hv⟩
      · rw [if_neg hsub] at hspec
        rcases mem_foldl_append_guard _ _ _ _ _ hspec with hmem | ⟨a, _, _, hxa⟩
        · simp at hmem
        · subst hxa
          refine ⟨rfl, rfl, ?_⟩
          intro v hv
          have hv' : v ∈ List.filter (fun v => ops.interType a v == 2)
              (classifyVoids ops p prim.voids).1 := hv
          have hfil := List.of_mem_filter hv'
          simpa using hfil

/-- Claim C1: in the multithreaded cutout, `clean_prim` classifies every
reference-net non-void primitive against the clip polygon in exactly
three ways: intersection type `Disjoint` (0) deletes the primitive and
creates nothing; fully `Contained` (2) keeps it untouched; any other
intersection type deletes the original and enqueues clipped replacement
polygons, each preserving the original primitive's net and layer and
re-attaching only voids fully contained in the kept piece. -/
theorem clean_prim_classifies (ops : EdbOps Poly) (clip : Poly)
    (prim : Primitive Poly) :
    (ops.interType clip prim.pdata = 0 →
      clean_prim ops clip prim = (true, [])) ∧
    (ops.interType clip prim.pdata = 2 →
      clean_prim ops clip prim = (false, [])) ∧
    (ops.interType clip prim.pdata ≠ 0 → ops.interType clip prim.pdata ≠ 2 →
      (clean_prim ops clip prim).1 = true ∧
      ∀ spec ∈ (clean_prim ops clip prim).2,
        spec.netName = prim.netName ∧ spec.layerName = prim.layerName ∧
          ∀ v ∈ spec.voidsToAppend, ops.interType spec.poly v = 2) := by
  refine ⟨fun h0 => ?_, fun h2 => ?_, fun h0 h2 => ?_⟩
  · unfold clean_prim
    simp [h0]
  · unfold clean_prim
    simp [h2]
  · have hb0 : (ops.interType clip prim.pdata == 0) = false := by
      simpa using h0
    have hb2 : (ops.interType clip prim.pdata != 2) = true := by
      simpa using h2
    constructor
    · unfold clean_prim
      simp only [hb0, hb2, if_true, if_false, Bool.false_eq_true]
    · intro spec hspec
      unfold clean_prim at hspec
      simp only [hb0, hb2, if_true, if_false, Bool.false_eq_true] at hspec
      revert hspec
      have main : ∀ (l : List Poly) (init : List (CreateSpec Poly)),
          (∀ s ∈ init, s.netName = prim.netName ∧ s.layerName = prim.layerName ∧
            ∀ v ∈ s.voidsToAppend, ops.interType s.poly v = 2) →
          spec ∈ l.foldl (fun acc p => acc ++ cleanPrimPiece ops prim p) init →
          spec.netName = prim.netName ∧ spec.layerName = prim.layerName ∧
            ∀ v ∈ spec.voidsToAppend, ops.interType spec.poly v = 2 := by
        intro l
        induction l with
        | nil => intro init h hm; exact h spec hm
        | cons p ps ih =>
          intro init h hm
          rw [List.foldl_cons] at hm
          refine ih _ ?_ hm
          intro s hs
          rcases List.mem_append.mp hs with hs | hs
          · exact h s hs
          · exact cleanPrimPiece_spec ops prim p s hs
      intro hspec
      exact main _ [] (by intro s hs; simp at hs) hspec

end CutoutProofs

/-! ### Concrete polygon engine used by the witnesses -/

/-- A concrete instantiation of the polygon engine over `Nat` codes, rich
enough to exercise every branch of `clean_prim`:
code 100 is the clip, 7 a partially overlapping primitive polygon,
8 its intersection piece, 3 a void to subtract, 4 a contained void,
9 the subtraction result, 50 a disjoint polygon, 0 the null polygon. -/
def exOps : EdbOps Nat where
  interType a b :=
    if a == 100 && b == 7 then 1
    else if a == 100 && b == 60 then 2
    else if a == 8 && b == 3 then 1
    else if a == 8 && b == 4 then 2
    else if a == 9 && b == 4 then 2
    else 0
  intersectPolys a b := if a == 100 && b == 7 then [8] else []
  subtractPolys p vs := if p == 8 && vs == [3] then [9] else []
  isNull n := n == 0
  inPolygonSimple i _ := i.uid % 2 == 0

/-- A reference-net primitive partially overlapping the clip, with one
void to subtract and one to re-attach. -/
def exPrim : Primitive Nat :=
  { uid := 1, netName := "GND", layerName := "L1", isVoid := false,
    pdata := 7, voids := [3, 4] }

/-- Witness for C1 at the concrete engine: the partially-overlapping
branch of `clean_prim` deletes the original and every created polygon
keeps net and layer and re-attaches only fully contained voids. -/
theorem clean_prim_classifies_w :
    (clean_prim exOps 100 exPrim).1 = true ∧
    ∀ spec ∈ (clean_prim exOps 100 exPrim).2,
      spec.netName = exPrim.netName ∧ spec.layerName = exPrim.layerName ∧
        ∀ v ∈ spec.voidsToAppend, exOps.interType spec.poly v = 2 :=
  (clean_prim_classifies exOps 100 exPrim).2.2 (by decide) (by decide)

/-! ## Proofs about the cutout pipeline -/

section CutoutPipelineProofs

variable {Poly : Type}

/-- Disjoint primitives are marked for deletion with nothing created
(`int_data == 0` branch of `clean_prim`). -/
lemma clean_prim_of_disjoint (ops : EdbOps Poly) (clip : Poly)
    (prim : Primitive Poly) (h : ops.interType clip prim.pdata = 0) :
    clean_prim ops clip prim = (true, []) := by
  unfold clean_prim
  simp [h]

/-- The effective reference net list is always part of the effective
union list of `_create_cutout_multithread`. -/
lemma sel_ref_sub_all (layout : Layout Poly) (sig ref : List String)
    (c : Bool) (s : String)
    (h : (cutoutSelect layout sig ref c).refList.contains s = true) :
    (cutoutSelect layout sig ref c).allList.contains s = true := by
  unfold cutoutSelect at h ⊢
  cases c
  · simp only [if_neg, Bool.false_eq_true, if_false] at h ⊢
    simp at h ⊢
    exact Or.inr h
  · simpa using h

/-- Reduction of the pipeline on a successful run. -/
lemma cutout_run_of_ok (ops : EdbOps Poly) (layout : Layout Poly)
    (sig ref : List String) (ce cc : Option Poly) (clip : Poly)
    (hclip : resolveExtent ce cc = some clip)
    (hnull : ops.isNull clip = false) :
    create_cutout_multithread ops layout sig ref ce cc =
      (let sel := cutoutSelect layout sig ref ce.isSome
      let pinsToDelete := sel.referencePinsts.filter (fun i => pins_clean ops clip i)
      let pinsts2 := sel.layoutAfter.pinsts.filter
        (fun i => !(pinsToDelete.any (fun d => d.uid == i.uid)))
      let cleaned := sel.referencePrims.map (fun p => (p, clean_prim ops clip p))
      let primsToDelete := (cleaned.filter (fun pc => pc.2.1)).map (fun pc => pc.1)
      let polyToCreate := cleaned.foldl (fun acc pc => acc ++ pc.2.2) []
      let freshUid := (layout.prims.map (fun p => p.uid)).foldl max 0 + 1
      let created := (List.range polyToCreate.length).zip polyToCreate |>.map
        (fun iq => { uid := freshUid + iq.1, netName := iq.2.netName,
                     layerName := iq.2.layerName, isVoid := false,
                     pdata := iq.2.poly, voids := iq.2.voidsToAppend : Primitive Poly })
      let prims3 := (sel.layoutAfter.prims ++ created).filter
        (fun q => !(primsToDelete.any (fun d => d.uid == q.uid)))
      (true, { nets := sel.layoutAfter.nets, pinsts := pinsts2, prims := prims3 })) := by
  unfold create_cutout_multithread
  rw [hclip]
  simp [hnull]

/-- Claim C2: after a successful multithreaded cutout every surviving
padstack instance of a reference net passes the in-polygon test against
the clip region, and no reference-net non-void primitive disjoint from
the clip region survives (the pipeline computes both classifications
from the pre-deletion snapshot and applies the deletions afterwards). -/
theorem cutout_containment (ops : EdbOps Poly) (layout : Layout Poly)
    (sig ref : List String) (ce cc : Option Poly) (clip : Poly)
    (hclip : resolveExtent ce cc = some clip)
    (hok : (create_cutout_multithread ops layout sig ref ce cc).1 = true) :
    (∀ i ∈ (create_cutout_multithread ops layout sig ref ce cc).2.pinsts,
      (cutoutSelect layout sig ref ce.isSome).refList.contains i.netName = true →
      ops.inPolygonSimple i clip = true) ∧
    (∀ p ∈ layout.prims,
      (cutoutSelect layout sig ref ce.isSome).refList.contains p.netName = true →
      p.isVoid = false → ops.interType clip p.pdata = 0 →
      ∀ q ∈ (create_cutout_multithread ops layout sig ref ce cc).2.prims,
        q.uid ≠ p.uid) := by
  have hnull : ops.isNull clip = false := by
    by_contra hcon
    have hnull' : ops.isNull clip = true := by
      cases h : ops.isNull clip
      · exact absurd h hcon
      · rfl
    rw [show (create_cutout_multithread ops layout sig ref ce cc)
        = (false, (cutoutSelect layout sig ref ce.isSome).layoutAfter) from ?_] at hok
    · exact Bool.false_ne_true hok
    · unfold create_cutout_multithread
      rw [hclip]
      simp [hnull']
  have hrun := cutout_run_of_ok ops layout sig ref ce cc clip hclip hnull
  rw [hrun]
  constructor
  · intro i hi href
    simp only [List.mem_filter] at hi
    obtain ⟨hi2, hnotdel⟩ := hi
    simp only [cutoutSelect, List.mem_filter] at hi2
    obtain ⟨hi0, hall⟩ := hi2
    cases hcase : ops.inPolygonSimple i clip
    · exfalso
      have hiref : i ∈ (cutoutSelect layout sig ref ce.isSome).referencePinsts := by
        have href' := href
        simp only [cutoutSelect] at href'
        simp only [cutoutSelect, List.mem_filter]
        refine ⟨hi0, ?_⟩
        rw [hall, href']
        rfl
      have hidel : i ∈ (cutoutSelect layout sig ref ce.isSome).referencePinsts.filter
          (fun j => pins_clean ops clip j) := by
        refine List.mem_filter.mpr ⟨hiref, ?_⟩
        unfold pins_clean
        rw [hcase]
        rfl
      have hany : ((cutoutSelect layout sig ref ce.isSome).referencePinsts.filter
          (fun j => pins_clean ops clip j)).any (fun d => d.uid == i.uid) = true := by
        refine List.any_eq_true.mpr ⟨i, hidel, ?_⟩
        simp
      rw [hany] at hnotdel
      exact Bool.false_ne_true hnotdel
    · rfl
  · intro p hp href hvoid hdisj q hq
    have hall := sel_ref_sub_all layout sig ref ce.isSome p.netName href
    have hpref : p ∈ (cutoutSelect layout sig ref ce.isSome).referencePrims := by
      unfold cutoutSelect at hall href ⊢
      refine List.mem_filter.mpr ⟨hp, ?_⟩
      rw [hall, href, hvoid]
      rfl
    have hpc : (p, clean_prim ops clip p) ∈
        (cutoutSelect layout sig ref ce.isSome).referencePrims.map
          (fun p => (p, clean_prim ops clip p)) :=
      List.mem_map_of_mem _ hpref
    have hdel1 : (p, clean_prim ops clip p) ∈
        ((cutoutSelect layout sig ref ce.isSome).referencePrims.map
          (fun p => (p, clean_prim ops clip p))).filter (fun pc => pc.2.1) := by
      refine List.mem_filter.mpr ⟨hpc, ?_⟩
      rw [clean_prim_of_disjoint ops clip p hdisj]
    have hdel : p ∈ (((cutoutSelect layout sig ref ce.isSome).referencePrims.map
          (fun p => (p, clean_prim ops clip p))).filter
            (fun pc => pc.2.1)).map (fun pc => pc.1) :=
      List.mem_map_of_mem _ hdel1
    simp only [List.mem_filter] at hq
    obtain ⟨_, hqnot⟩ := hq
    intro hequ
    have hany : ((((cutoutSelect layout sig ref ce.isSome).referencePrims.map
          (fun p => (p, clean_prim ops clip p))).filter
            (fun pc => pc.2.1)).map (fun pc => pc.1)).any
          (fun d => d.uid == q.uid) = true := by
      refine List.any_eq_true.mpr ⟨p, hdel, ?_⟩
      simp [hequ]
    rw [hany] at hqnot
    exact Bool.false_ne_true hqnot

/-- Claim C3: a null or absent clip region aborts the multithreaded
cutout with `False`, and the destructive deletions of the nets, padstack
instances and primitives outside the signal∪reference union already
performed are not rolled back: the layout stays mutated. -/
theorem cutout_null_extent_aborts (ops : EdbOps Poly) (layout : Layout Poly)
    (sig ref : List String) (ce cc : Option Poly)
    (hnull : ∀ clip, resolveExtent ce cc = some clip → ops.isNull clip = true) :
    (create_cutout_multithread ops layout sig ref ce cc).1 = false ∧
    (create_cutout_multithread ops layout sig ref ce cc).2 =
      (cutoutSelect layout sig ref ce.isSome).layoutAfter ∧
    (∀ n ∈ layout.nets,
      (cutoutSelect layout sig ref ce.isSome).allList.contains n = false →
      n ∉ (create_cutout_multithread ops layout sig ref ce cc).2.nets) ∧
    (∀ i ∈ layout.pinsts,
      (cutoutSelect layout sig ref ce.isSome).allList.contains i.netName = false →
      i ∉ (create_cutout_multithread ops layout sig ref ce cc).2.pinsts) ∧
    (∀ p ∈ layout.prims,
      (cutoutSelect layout sig ref ce.isSome).allList.contains p.netName = false →
      p ∉ (create_cutout_multithread ops layout sig ref ce cc).2.prims) ∧
    (∀ n ∈ layout.nets,
      (cutoutSelect layout sig ref ce.isSome).allList.contains n = true →
      n ∈ (create_cutout_multithread ops layout sig ref ce cc).2.nets) := by
  have hres : create_cutout_multithread ops layout sig ref ce cc =
      (false, (cutoutSelect layout sig ref ce.isSome).layoutAfter) := by
    unfold create_cutout_multithread
    cases hr : resolveExtent ce cc with
    | none => rfl
    | some clip => simp [hnull clip hr]
  rw [hres]
  refine ⟨rfl, rfl, ?_, ?_, ?_, ?_⟩
  · intro n _ hnc hmem
    unfold cutoutSelect at hnc hmem
    simp only [List.mem_filter] at hmem
    rw [hmem.2] at hnc
    exact Bool.true_eq_false ▸ Bool.false_ne_true hnc.symm
  · intro i _ hnc hmem
    unfold cutoutSelect at hnc hmem
    simp only [List.mem_filter] at hmem
    rw [hmem.2] at hnc
    exact Bool.true_eq_false ▸ Bool.false_ne_true hnc.symm
  · intro p _ hnc hmem
    unfold cutoutSelect at hnc hmem
    simp only [List.mem_filter] at hmem
    rw [hmem.2] at hnc
    exact Bool.true_eq_false ▸ Bool.false_ne_true hnc.symm
  · intro n hn hnc
    unfold cutoutSelect at hnc ⊢
    exact List.mem_filter.mpr ⟨hn, hnc⟩

/-- Claim C10: with a custom extent polygon the signal nets are appended
to the reference list before pruning, so signal-net padstack instances
and non-void primitives are collected for geometric classification,
whereas in the net-derived-extent path a purely-signal-net instance is
never classified (it is kept unconditionally). -/
theorem custom_extent_signal_classified (layout : Layout Poly)
    (sig ref : List String) :
    ((cutoutSelect layout sig ref true).refList = ref ++ sig) ∧
    (∀ i ∈ layout.pinsts, sig.contains i.netName = true →
      i ∈ (cutoutSelect layout sig ref true).referencePinsts) ∧
    (∀ p ∈ layout.prims, sig.contains p.netName = true → p.isVoid = false →
      p ∈ (cutoutSelect layout sig ref true).referencePrims) ∧
    (∀ i ∈ layout.pinsts, sig.contains i.netName = true →
      ref.contains i.netName = false →
      i ∉ (cutoutSelect layout sig ref false).referencePinsts) := by
  refine ⟨rfl, ?_, ?_, ?_⟩
  · intro i hi hsig
    unfold cutoutSelect
    refine List.mem_filter.mpr ⟨hi, ?_⟩
    have hc : (ref ++ sig).contains i.netName = true := by
      simp at hsig ⊢
      exact Or.inr hsig
    simp only [if_pos]
    rw [hc]
    rfl
  · intro p hp hsig hvoid
    unfold cutoutSelect
    refine List.mem_filter.mpr ⟨hp, ?_⟩
    have hc : (ref ++ sig).contains p.netName = true := by
      simp at hsig ⊢
      exact Or.inr hsig
    simp only [if_pos]
    rw [hc, hvoid]
    rfl
  · intro i _ _ href hmem
    unfold cutoutSelect at hmem
    simp only [Bool.false_eq_true, if_false, List.mem_filter] at hmem
    have := hmem.2
    rw [href] at this
    simp at this

end CutoutPipelineProofs

/-- A concrete layout exercising the cutout: signal net `S`, reference
net `GND`, off-net geometry on `X`. -/
def exLayout : Layout Nat :=
  { nets := ["S", "GND", "X"]
    pinsts := [⟨2, "GND"⟩, ⟨3, "GND"⟩, ⟨4, "S"⟩, ⟨5, "X"⟩]
    prims := [exPrim,
      { uid := 10, netName := "GND", layerName := "L1", isVoid := false,
        pdata := 50, voids := [] },
      { uid := 11, netName := "S", layerName := "L2", isVoid := false,
        pdata := 60, voids := [] },
      { uid := 12, netName := "X", layerName := "L1", isVoid := false,
        pdata := 7, voids := [] }] }

/-- Witness for C2 at the concrete engine: after the successful run with
clip polygon 100, surviving reference-net padstack instances pass the
in-polygon test and the disjoint reference-net primitive (uid 10) is
gone. -/
theorem cutout_containment_w :
    (∀ i ∈ (create_cutout_multithread exOps exLayout ["S"] ["GND"] none
        (some 100)).2.pinsts,
      (cutoutSelect exLayout ["S"] ["GND"] (none : Option Nat).isSome).refList.contains
          i.netName = true →
      exOps.inPolygonSimple i 100 = true) ∧
    (∀ p ∈ exLayout.prims,
      (cutoutSelect exLayout ["S"] ["GND"] (none : Option Nat).isSome).refList.contains
          p.netName = true →
      p.isVoid = false → exOps.interType 100 p.pdata = 0 →
      ∀ q ∈ (create_cutout_multithread exOps exLayout ["S"] ["GND"] none
          (some 100)).2.prims, q.uid ≠ p.uid) :=
  cutout_containment exOps exLayout ["S"] ["GND"] none (some 100) 100
    (by decide) (by decide)

/-- Witness for C3 at the concrete engine: a null custom extent (polygon
code 0) aborts the cutout while the off-net deletions stay applied. -/
theorem cutout_null_extent_aborts_w :
    (create_cutout_multithread exOps exLayout ["S"] ["GND"] (some 0) none).1
        = false ∧
    (create_cutout_multithread exOps exLayout ["S"] ["GND"] (some 0) none).2 =
      (cutoutSelect exLayout ["S"] ["GND"] (some (0 : Nat)).isSome).layoutAfter ∧
    (∀ n ∈ exLayout.nets,
      (cutoutSelect exLayout ["S"] ["GND"] (some (0 : Nat)).isSome).allList.contains n
          = false →
      n ∉ (create_cutout_multithread exOps exLayout ["S"] ["GND"] (some 0)
        none).2.nets) ∧
    (∀ i ∈ exLayout.pinsts,
      (cutoutSelect exLayout ["S"] ["GND"]
          (some (0 : Nat)).isSome).allList.contains i.netName = false →
      i ∉ (create_cutout_multithread exOps exLayout ["S"] ["GND"] (some 0)
        none).2.pinsts) ∧
    (∀ p ∈ exLayout.prims,
      (cutoutSelect exLayout ["S"] ["GND"]
          (some (0 : Nat)).isSome).allList.contains p.netName = false →
      p ∉ (create_cutout_multithread exOps exLayout ["S"] ["GND"] (some 0)
        none).2.prims) ∧
    (∀ n ∈ exLayout.nets,
      (cutoutSelect exLayout ["S"] ["GND"] (some (0 : Nat)).isSome).allList.contains n
          = true →
      n ∈ (create_cutout_multithread exOps exLayout ["S"] ["GND"] (some 0)
        none).2.nets) :=
  cutout_null_extent_aborts exOps exLayout ["S"] ["GND"] (some 0) none
    (by intro clip h; cases h; decide)

/-- Witness for C10 at a concrete layout: with a custom extent the
signal-net padstack instance (uid 4) and primitive (uid 11) are collected
for classification, while without one the signal-net instance is not. -/
theorem custom_extent_signal_classified_w :
    ((cutoutSelect exLayout ["S"] ["GND"] true).refList = ["GND"] ++ ["S"]) ∧
    (⟨4, "S"⟩ : PadstackInstance) ∈
      (cutoutSelect exLayout ["S"] ["GND"] true).referencePinsts ∧
    (⟨4, "S"⟩ : PadstackInstance) ∉
      (cutoutSelect exLayout ["S"] ["GND"] false).referencePinsts :=
  ⟨(custom_extent_signal_classified exLayout ["S"] ["GND"]).1,
   (custom_extent_signal_classified exLayout ["S"] ["GND"]).2.1 ⟨4, "S"⟩
     (by decide) (by decide),
   (custom_extent_signal_classified exLayout ["S"] ["GND"]).2.2.2 ⟨4, "S"⟩
     (by decide) (by decide) (by decide)⟩

/-! ## Proofs about the layer model (`add_layer`, `remove_layer`) -/

lemma buildStackupLayer_name (layer_name : String) (thickness : ℚ)
    (layer_type method material fillMaterial : String) (is_negative : Bool)
    (etch_factor : Option ℚ) (enable_roughness : Bool) (elevation : Option ℚ) :
    (buildStackupLayer layer_name thickness layer_type method material
      fillMaterial is_negative etch_factor enable_roughness elevation).name
      = layer_name := by
  unfold buildStackupLayer createStackupLayer
  rcases h1 : method == "add_at_elevation" <;> cases elevation <;>
    · by_cases h2 : (layer_type != "dielectric") = true <;> simp [h1, h2]

lemma addLayerTop_names (lc : LayerCollection) (l : Layer) :
    (addLayerTop lc l).layers.map (fun x => x.name)
      = lc.layers.map (fun x => x.name) ++ [l.name] := by
  unfold addLayerTop
  split <;> simp

lemma addLayerBottom_names (lc : LayerCollection) (l : Layer) :
    (addLayerBottom lc l).layers.map (fun x => x.name)
      = l.name :: lc.layers.map (fun x => x.name) := by
  unfold addLayerBottom
  split <;> simp

lemma addLayerTop_length (lc : LayerCollection) (l : Layer) :
    (addLayerTop lc l).layers.length = lc.layers.length + 1 := by
  unfold addLayerTop
  split <;> simp

lemma addLayerBottom_length (lc : LayerCollection) (l : Layer) :
    (addLayerBottom lc l).layers.length = lc.layers.length + 1 := by
  unfold addLayerBottom
  split <;> simp

/-- Claim C7: `add_layer` rejects a duplicate layer name (falsy result),
while a material or fill material missing from the material library is
only logged: the call still succeeds and, for the stackup layer types
with a top/bottom insertion method, the named layer is still created. -/
theorem add_layer_error_handling (st : StackupState) (layer_name : String)
    (base_layer : Option String) (method layer_type material fillMaterial : String)
    (thickness : ℚ) (etch : Option ℚ) (neg rough : Bool) (elev : Option ℚ) :
    ((layerNames st).contains layer_name = true →
      add_layer st layer_name base_layer method layer_type material fillMaterial
        thickness etch neg rough elev = none) ∧
    ((layerNames st).contains layer_name = false →
      (layer_type = "signal" ∨ layer_type = "dielectric") →
      (add_layer st layer_name base_layer method layer_type material fillMaterial
        thickness etch neg rough elev).isSome = true) ∧
    ((layerNames st).contains layer_name = false →
      (layer_type = "signal" ∨ layer_type = "dielectric") →
      (method = "add_on_top" ∨ method = "add_on_bottom") →
      ∃ st', add_layer st layer_name base_layer method layer_type material
          fillMaterial thickness etch neg rough elev = some st' ∧
        layer_name ∈ layerNames st') := by
  refine ⟨fun hdup => ?_, fun hfresh hlt => ?_, fun hfresh hlt hmeth => ?_⟩
  · simp only [add_layer]
    rw [if_pos hdup]
  · simp only [add_layer]
    rw [if_neg (by rw [hfresh]; exact Bool.false_ne_true)]
    split <;> rfl
  · have hltb : (layer_type == "signal" || layer_type == "dielectric") = true := by
      rcases hlt with h | h <;> simp [h]
    simp only [add_layer]
    rw [if_neg (by rw [hfresh]; exact Bool.false_ne_true), if_pos hltb]
    rcases hmeth with hm | hm
    · subst hm
      have hset : ∀ lc nl b, setLayoutStackup lc nl "add_on_top" b
          = addLayerTop lc nl := fun _ _ _ => rfl
      simp only [hset, addLayerTop_length]
      have hne : (st.lc.layers.length + 1 == st.lc.layers.length) = false := by
        simp
      rw [hne]
      rw [if_neg Bool.false_ne_true]
      refine ⟨_, rfl, ?_⟩
      unfold layerNames
      rw [addLayerTop_names, buildStackupLayer_name]
      simp
    · subst hm
      have hset : ∀ lc nl b, setLayoutStackup lc nl "add_on_bottom" b
          = addLayerBottom lc nl := fun _ _ _ => rfl
      simp only [hset, addLayerBottom_length]
      have hne : (st.lc.layers.length + 1 == st.lc.layers.length) = false := by
        simp
      rw [hne]
      rw [if_neg Bool.false_ne_true]
      refine ⟨_, rfl, ?_⟩
      unfold layerNames
      rw [addLayerBottom_names, buildStackupLayer_name]
      simp

/-- A one-layer stackup state with a two-entry material library. -/
def exL0 : Layer :=
  { name := "L0", kind := .signal, thickness := 35/1000000, lowerElevation := 0,
    material := "copper", fillMaterial := "fr4_epoxy", isNegative := false,
    etchFactor := none, roughnessEnabled := false, isVia := false,
    assoc := .topAssoc, upperRefName := "", lowerRefName := "" }

def exStMat : StackupState :=
  { lc := { layers := [exL0], mode := .laminate },
    materials := ["copper", "fr4_epoxy"] }

/-- Witness for C7: adding the existing layer `L0` is rejected with the
falsy result, while adding `L1` with the unknown material `unobtanium`
succeeds and `L1` is present afterwards. -/
theorem add_layer_error_handling_w :
    (add_layer exStMat "L0" none "add_on_top" "signal" "copper" "fr4_epoxy"
      (35/1000000) none false false none = none) ∧
    (∃ st', add_layer exStMat "L1" none "add_on_top" "signal" "unobtanium"
        "fr4_epoxy" (35/1000000) none false false none = some st' ∧
      "L1" ∈ layerNames st') :=
  ⟨(add_layer_error_handling exStMat "L0" none "add_on_top" "signal" "copper"
      "fr4_epoxy" (35/1000000) none false false none).1 (by decide),
   (add_layer_error_handling exStMat "L1" none "add_on_top" "signal" "unobtanium"
      "fr4_epoxy" (35/1000000) none false false none).2.2 (by decide)
      (Or.inl rfl) (Or.inl rfl)⟩

/-! ## `remove_layer` (claim C8) -/

/-- A signal layer at elevation 1 used by the counterexamples. -/
def exLayerA : Layer :=
  { name := "A", kind := .signal, thickness := 1, lowerElevation := 1,
    material := "copper", fillMaterial := "fr4_epoxy", isNegative := false,
    etchFactor := none, roughnessEnabled := false, isVia := false,
    assoc := .topAssoc, upperRefName := "", lowerRefName := "" }

/-- A signal layer at elevation 0 used by the counterexamples. -/
def exLayerB : Layer :=
  { exLayerA with name := "B", lowerElevation := 0 }

/-- A two-layer collection whose collection order (A below B) disagrees
with elevation order (A is higher). -/
def exBadLc : LayerCollection :=
  { layers := [exLayerA, exLayerB], mode := .laminate }

def exStAB : StackupState :=
  { lc := exBadLc, materials := [] }

/-- Counterexample to C8 as stated: removing the absent layer name
`nope` does not return false — the commit of the rebuilt collection is
returned, which reports success. -/
theorem remove_layer_absent_cex :
    (layerNames exStAB).contains "nope" = false ∧
    (remove_layer exStAB "nope").1 = true := by
  exact ⟨by decide, rfl⟩

lemma remove_fold_names (name : String) (ls : List Layer) :
    ∀ (acc : LayerCollection),
      ((ls.foldl (fun acc lyr => if lyr.name == name then acc
          else addLayerBottom acc lyr) acc).layers.map (fun l => l.name))
        = ((ls.filter (fun l => !(l.name == name))).map
            (fun l => l.name)).reverse ++ acc.layers.map (fun l => l.name) := by
  induction ls with
  | nil => intro acc; simp
  | cons x xs ih =>
    intro acc
    rw [List.foldl_cons]
    by_cases hx : (x.name == name) = true
    · rw [if_pos hx, ih]
      simp [List.filter_cons, hx]
    · rw [if_neg hx, ih]
      rw [addLayerBottom_names]
      simp only [List.filter_cons]
      have hx' : (!(x.name == name)) = true := by
        cases h : x.name == name
        · rfl
        · exact absurd h hx
      rw [hx']
      simp

/-- Claim C8, amended: `remove_layer` rebuilds the collection containing
exactly the layers whose name differs from the given one (every other
layer is kept), and it returns the successful result of the commit even
when no layer with that name exists (the source performs no existence
check, so the falsy no-op return of the claim does not occur). -/
theorem remove_layer_rebuild (st : StackupState) (name : String) :
    (remove_layer st name).1 = true ∧
    (remove_layer st name).2.lc.layers.map (fun l => l.name)
      = ((st.lc.layers.filter (fun l => !(l.name == name))).map
          (fun l => l.name)).reverse := by
  refine ⟨rfl, ?_⟩
  simp only [remove_layer]
  rw [remove_fold_names]
  simp

/-! ## `create_symmetric_stackup` scenario (claim C9) -/

/-- The empty stackup with the default material library entries. -/
def exEmptySt : StackupState :=
  { lc := { layers := [], mode := .laminate },
    materials := ["copper", "fr4_epoxy", "air", "solder_mask"] }

unseal Rat.mul Rat.inv Rat.add Rat.sub in
/-- Claim C9: `create_symmetric_stackup` with `layer_count = 2` and
`soldermask = False` on an empty stackup produces exactly the three
stackup layers copper `BOT` (50um), dielectric `D1` (100um) and copper
`TOP` (50um), and `get_layout_thickness` then returns exactly 200um. -/
theorem create_symmetric_two_layer :
    (create_symmetric_stackup exEmptySt 2 (17/1000000) (50/1000000)
      (100/1000000) "fr4_epoxy" false (20/1000000)).1 = true ∧
    ((stackupLayersList (create_symmetric_stackup exEmptySt 2 (17/1000000)
        (50/1000000) (100/1000000) "fr4_epoxy" false (20/1000000)).2.lc).map
      (fun l => (l.name, l.kind, l.thickness)))
      = [("BOT", LayerKind.signal, 50/1000000),
         ("D1", LayerKind.dielectric, 100/1000000),
         ("TOP", LayerKind.signal, 50/1000000)] ∧
    get_layout_thickness (create_symmetric_stackup exEmptySt 2 (17/1000000)
      (50/1000000) (100/1000000) "fr4_epoxy" false (20/1000000)).2.lc
      = some (200/1000000) := by
  decide

/-! ## `get_layout_thickness` vs `stackup_limits` (claim C6) -/

unseal Rat.mul Rat.inv Rat.add Rat.sub in
/-- Counterexample to C6 as stated: on a stackup whose collection order
disagrees with elevation order (layer `A` at elevation 1 enumerated
before layer `B` at elevation 0), `get_layout_thickness` returns 0 while
the min/max-elevation based `stackup_limits` formula gives 2. -/
theorem layout_thickness_limits_cex :
    2 ≤ (stackupLayersList exBadLc).length ∧
    get_layout_thickness exBadLc = some 0 ∧
    stackup_limits exBadLc false
      = some ("A", exLayerA.lowerElevation, "B", exLayerB.lowerElevation) ∧
    exLayerA.lowerElevation + exLayerA.thickness - exLayerB.lowerElevation = 2 ∧
    (0 : ℚ) ≠ 2 := by
  decide

lemma pickMax_sorted (xs : List Layer) : ∀ (x : Layer),
    List.Pairwise (fun a b => a.lowerElevation < b.lowerElevation) (x :: xs) →
    xs.foldl (fun b l => if b.lowerElevation < l.lowerElevation then l else b) x
      = xs.getLastD x := by
  induction xs with
  | nil => intro x _; rfl
  | cons y ys ih =>
    intro x hp
    rcases List.pairwise_cons.mp hp with ⟨hx, hp'⟩
    rw [List.foldl_cons, if_pos (hx y (List.mem_cons_self y ys)), ih y hp',
      List.getLastD_cons]

lemma pickMin_head (xs : List Layer) : ∀ (x : Layer),
    (∀ l ∈ xs, x.lowerElevation < l.lowerElevation) →
    xs.foldl (fun b l => if l.lowerElevation < b.lowerElevation then l else b) x
      = x := by
  induction xs with
  | nil => intro x _; rfl
  | cons y ys ih =>
    intro x h
    rw [List.foldl_cons, if_neg (lt_asymm (h y (List.mem_cons_self y ys)))]
    exact ih x (fun l hl => h l (List.mem_cons_of_mem y hl))

/-- Claim C6, amended: for a stackup with at least two stackup layers
whose collection order is strictly sorted by lower elevation (the
implicit invariant §4.1 assumes), `get_layout_thickness` equals the
`stackup_limits(only_metals=False)` top-elevation-plus-top-thickness
minus bottom-elevation formula; without that sortedness hypothesis the
two can differ. -/
theorem get_layout_thickness_matches_limits (lc : LayerCollection)
    (hlen : 2 ≤ (stackupLayersList lc).length)
    (hsort : List.Pairwise (fun a b => a.lowerElevation < b.lowerElevation)
      (stackupLayersList lc)) :
    ∃ t b, topBottomOf (stackupLayersList lc) = some (t, b) ∧
      stackup_limits lc false
        = some (t.name, t.lowerElevation, b.name, b.lowerElevation) ∧
      get_layout_thickness lc
        = some (t.lowerElevation + t.thickness - b.lowerElevation) := by
  cases hl : stackupLayersList lc with
  | nil => rw [hl] at hlen; exact absurd hlen (by simp)
  | cons x xs =>
    rw [hl] at hsort
    have hmax := pickMax_sorted xs x hsort
    have hmin := pickMin_head xs x (List.pairwise_cons.mp hsort).1
    have htb : topBottomOf (x :: xs) = some (xs.getLastD x, x) := by
      have hdef : topBottomOf (x :: xs)
          = some (xs.foldl
              (fun b l => if b.lowerElevation < l.lowerElevation then l else b) x,
            xs.foldl
              (fun b l => if l.lowerElevation < b.lowerElevation then l else b) x) :=
        rfl
      rw [hdef, hmax, hmin]
    refine ⟨xs.getLastD x, x, htb, ?_, ?_⟩
    · have h0 : stackup_limits lc false
          = (topBottomOf (stackupLayersList lc)).map
            (fun tb => (tb.1.name, tb.1.lowerElevation, tb.2.name,
              tb.2.lowerElevation)) := rfl
      rw [h0, hl, htb]
      rfl
    · unfold get_layout_thickness
      rw [hl]

/-- A two-layer collection sorted consistently with elevation. -/
def exGoodLc : LayerCollection :=
  { layers := [exLayerB, exLayerA], mode := .laminate }

unseal Rat.mul Rat.inv Rat.add Rat.sub in
/-- Witness for the amended C6 on a sorted two-layer stackup. -/
theorem get_layout_thickness_matches_limits_w :
    ∃ t b, topBottomOf (stackupLayersList exGoodLc) = some (t, b) ∧
      stackup_limits exGoodLc false
        = some (t.name, t.lowerElevation, b.name, b.lowerElevation) ∧
      get_layout_thickness exGoodLc
        = some (t.lowerElevation + t.thickness - b.lowerElevation) :=
  get_layout_thickness_matches_limits exGoodLc (by decide)
    (by simp [stackupLayersList, exGoodLc, List.pairwise_cons, exLayerA,
      exLayerB, Layer.isStackup])

/-! ## Proofs about `flip_design` (claims C4 and C5) -/

lemma mem_addAtElevation (l : Layer) : ∀ (acc : List Layer) (a : Layer),
    a ∈ addStackupLayerAtElevation acc l ↔ a = l ∨ a ∈ acc := by
  intro acc
  induction acc with
  | nil => intro a; simp [addStackupLayerAtElevation]
  | cons x xs ih =>
    intro a
    unfold addStackupLayerAtElevation
    by_cases h : l.lowerElevation < x.lowerElevation
    · rw [if_pos h]
      simp
    · rw [if_neg h]
      simp only [List.mem_cons, ih]
      constructor
      · rintro (h1 | h1 | h1)
        · exact Or.inr (Or.inl h1)
        · exact Or.inl h1
        · exact Or.inr (Or.inr h1)
      · rintro (h1 | h1 | h1)
        · exact Or.inr (Or.inl h1)
        · exact Or.inl h1
        · exact Or.inr (Or.inr h1)

lemma mem_foldl_addAtElevation (f : Layer → Layer) (ms : List Layer) :
    ∀ (acc : List Layer) (a : Layer),
      a ∈ ms.foldl (fun acc l => addStackupLayerAtElevation acc (f l)) acc ↔
        a ∈ acc ∨ ∃ l ∈ ms, a = f l := by
  induction ms with
  | nil => intro acc a; simp
  | cons m ms ih =>
    intro acc a
    rw [List.foldl_cons, ih, mem_addAtElevation]
    constructor
    · rintro ((h | h) | ⟨l, hl, he⟩)
      · exact Or.inr ⟨m, List.mem_cons_self m ms, h⟩
      · exact Or.inl h
      · exact Or.inr ⟨l, List.mem_cons_of_mem m hl, he⟩
    · rintro (h | ⟨l, hl, he⟩)
      · exact Or.inl (Or.inr h)
      · rcases List.mem_cons.mp hl with h1 | h1
        · subst h1; exact Or.inl (Or.inl he)
        · exact Or.inr ⟨l, h1, he⟩

lemma flipVias_sub (old : List Layer) : ∀ (vs acc res : List Layer),
    flipVias old acc vs = some res → ∀ a ∈ acc, a ∈ res := by
  intro vs
  induction vs with
  | nil =>
    intro acc res h a ha
    unfold flipVias at h
    cases h
    exact ha
  | cons v vs ih =>
    intro acc res h a ha
    unfold flipVias at h
    rcases h1 : old.find? (fun x => x.name == v.upperRefName) with _ | upperRef <;>
      rw [h1] at h
    · cases h
    rcases h2 : old.find? (fun x => x.name == v.lowerRefName) with _ | lowerRef <;>
      rw [h2] at h
    · cases h
    rcases h3 : acc.find? (fun x => x.name == v.upperRefName) with _ | refFlipped <;>
      rw [h3] at h
    · cases h
    exact ih _ res h a ((mem_addAtElevation _ _ _).mpr (Or.inr ha))

lemma flipVias_spec (old : List Layer) : ∀ (vs acc res : List Layer),
    flipVias old acc vs = some res →
    ∀ v ∈ vs, ∃ v' ∈ res, v'.name = v.name ∧
      v'.upperRefName = v.lowerRefName ∧ v'.lowerRefName = v.upperRefName ∧
      ∃ r ∈ res, r.name = v.upperRefName ∧
        v'.lowerElevation = r.lowerElevation + r.thickness := by
  intro vs
  induction vs with
  | nil => intro acc res _ v hv; simp at hv
  | cons v0 vs ih =>
    intro acc res h v hv
    unfold flipVias at h
    rcases h1 : old.find? (fun x => x.name == v0.upperRefName) with _ | upperRef <;>
      rw [h1] at h
    · cases h
    rcases h2 : old.find? (fun x => x.name == v0.lowerRefName) with _ | lowerRef <;>
      rw [h2] at h
    · cases h
    rcases h3 : acc.find? (fun x => x.name == v0.upperRefName) with _ | refFlipped <;>
      rw [h3] at h
    · cases h
    rcases List.mem_cons.mp hv with hv0 | hvtl
    · subst hv0
      refine ⟨{ v with
          upperRefName := lowerRef.name
          lowerRefName := upperRef.name
          lowerElevation := refFlipped.lowerElevation + refFlipped.thickness },
        ?_, rfl, ?_, ?_, refFlipped, ?_, ?_, rfl⟩
      · exact flipVias_sub old vs _ res h _
          ((mem_addAtElevation _ _ _).mpr (Or.inl rfl))
      · have := List.find?_some h2
        simpa using this
      · have := List.find?_some h1
        have hn : upperRef.name = v.upperRefName := by simpa using this
        exact hn
      · exact flipVias_sub old vs _ res h refFlipped
          ((mem_addAtElevation _ _ _).mpr
            (Or.inr (List.mem_of_find?_eq_some h3)))
      · have := List.find?_some h3
        simpa using this
    · exact ih _ res h v hvtl

/-- Reduction of `flip_design` on collections without via layers. -/
lemma flip_design_no_vias (lc : LayerCollection)
    (h : lc.layers.filter (fun l => l.isStackup && l.isVia) = []) :
    flip_design lc = some
      { layers := (lc.layers.filter
          (fun l => l.isStackup && !(containsRadBox l.name) && !l.isVia)).foldl
            (fun acc l => addStackupLayerAtElevation acc
              (flipLayer (maxElevationUm lc.layers) l)) []
          ++ lc.layers.filter (fun l => !l.isStackup),
        mode := lc.mode } := by
  simp only [flip_design]
  rw [h]
  rfl

/-- Claim C4: `flip_design` gives every non-via stackup layer whose name
avoids `"RadBox"` the new lower elevation `max_elevation - old_upper`
(`max_elevation` being the code's micrometer scan over the non-RadBox
stackup layers) and toggles its top/bottom association; non-stackup
layers pass through unchanged; every via layer reappears with its
reference layers swapped and its lower elevation recomputed from the new
position of its former upper reference layer. -/
theorem flip_design_remaps (lc lc' : LayerCollection)
    (h : flip_design lc = some lc') :
    (∀ l ∈ lc.layers, l.isStackup = true → containsRadBox l.name = false →
      l.isVia = false →
      flipLayer (maxElevationUm lc.layers) l ∈ lc'.layers ∧
      (flipLayer (maxElevationUm lc.layers) l).lowerElevation
        = maxElevationUm lc.layers / 1000000 - l.upperElevation ∧
      (l.assoc = .topAssoc →
        (flipLayer (maxElevationUm lc.layers) l).assoc = .bottomAssoc) ∧
      (l.assoc = .bottomAssoc →
        (flipLayer (maxElevationUm lc.layers) l).assoc = .topAssoc)) ∧
    (∀ l ∈ lc.layers, l.isStackup = false → l ∈ lc'.layers) ∧
    (∀ v ∈ lc.layers, v.isStackup = true → v.isVia = true →
      ∃ v' ∈ lc'.layers, v'.name = v.name ∧
        v'.upperRefName = v.lowerRefName ∧ v'.lowerRefName = v.upperRefName ∧
        ∃ r ∈ lc'.layers, r.name = v.upperRefName ∧
          v'.lowerElevation = r.lowerElevation + r.thickness) := by
  simp only [flip_design] at h
  rcases hfv : flipVias lc.layers
      ((lc.layers.filter
        (fun l => l.isStackup && !(containsRadBox l.name) && !l.isVia)).foldl
          (fun acc l => addStackupLayerAtElevation acc
            (flipLayer (maxElevationUm lc.layers) l)) [])
      (lc.layers.filter (fun l => l.isStackup && l.isVia)) with _ | w <;>
    rw [hfv] at h
  · cases h
  cases h
  refine ⟨?_, ?_, ?_⟩
  · intro l hl hst hrb hvia
    refine ⟨?_, ?_, ?_, ?_⟩
    · apply List.mem_append_left
      refine flipVias_sub lc.layers _ _ _ hfv _ ?_
      rw [mem_foldl_addAtElevation]
      refine Or.inr ⟨l, ?_, rfl⟩
      refine List.mem_filter.mpr ⟨hl, ?_⟩
      rw [hst, hrb, hvia]
      rfl
    · show (maxElevationUm lc.layers - l.upperElevation * 1000000) / 1000000
        = maxElevationUm lc.layers / 1000000 - l.upperElevation
      have h6 : (1000000 : ℚ) ≠ 0 := by norm_num
      field_simp
      ring
    · intro ha
      show flipAssoc l.assoc = TopBottomAssoc.bottomAssoc
      rw [ha]
      rfl
    · intro ha
      show flipAssoc l.assoc = TopBottomAssoc.topAssoc
      rw [ha]
      rfl
  · intro l hl hst
    apply List.mem_append_right
    refine List.mem_filter.mpr ⟨hl, ?_⟩
    rw [hst]
    rfl
  · intro v hv hst hvia
    have hmem : v ∈ lc.layers.filter (fun l => l.isStackup && l.isVia) := by
      refine List.mem_filter.mpr ⟨hv, ?_⟩
      rw [hst, hvia]
      rfl
    rcases flipVias_spec lc.layers _ _ _ hfv v hmem with
      ⟨v', hv', hname, hup, hlow, r, hr, hrname, helev⟩
    exact ⟨v', List.mem_append_left _ hv', hname, hup, hlow, r,
      List.mem_append_left _ hr, hrname, helev⟩

/-- A zero-based signal layer used by the flip witnesses. -/
def exS1 : Layer :=
  { name := "S1", kind := .signal, thickness := 1, lowerElevation := 0,
    material := "copper", fillMaterial := "fr4_epoxy", isNegative := false,
    etchFactor := none, roughnessEnabled := false, isVia := false,
    assoc := .topAssoc, upperRefName := "", lowerRefName := "" }

/-- A via layer referencing `S1` on both sides. -/
def exVia : Layer :=
  { exS1 with
      name := "V"
      isVia := true
      thickness := 0
      assoc := .bothAssoc
      upperRefName := "S1"
      lowerRefName := "S1" }

def exViaLc : LayerCollection := { layers := [exS1, exVia], mode := .laminate }

/-- The literal flipped collection of `exViaLc`. -/
def exViaLc' : LayerCollection :=
  { layers :=
      [{ exS1 with assoc := .bottomAssoc },
       { exVia with lowerElevation := 1 }]
    mode := .laminate }

unseal Rat.mul Rat.inv Rat.add Rat.sub in
/-- Witness for C4 at a concrete two-layer stackup with a via: the
signal layer is remapped to `max_elevation - old_upper` with its
association toggled, and the via reappears with swapped references and
its elevation taken from the flipped reference layer. -/
theorem flip_design_remaps_w :
    flipLayer (maxElevationUm exViaLc.layers) exS1 ∈ exViaLc'.layers ∧
    (flipLayer (maxElevationUm exViaLc.layers) exS1).lowerElevation
      = maxElevationUm exViaLc.layers / 1000000 - exS1.upperElevation ∧
    (flipLayer (maxElevationUm exViaLc.layers) exS1).assoc
      = TopBottomAssoc.bottomAssoc ∧
    (∃ v' ∈ exViaLc'.layers, v'.name = exVia.name ∧
      v'.upperRefName = exVia.lowerRefName ∧
      v'.lowerRefName = exVia.upperRefName ∧
      ∃ r ∈ exViaLc'.layers, r.name = exVia.upperRefName ∧
        v'.lowerElevation = r.lowerElevation + r.thickness) := by
  have happ := flip_design_remaps exViaLc exViaLc' (by decide)
  have h1 := happ.1 exS1 (by decide) (by decide) (by decide) (by decide)
  exact ⟨h1.1, h1.2.1, h1.2.2.1 rfl,
    happ.2.2 exVia (by decide) (by decide) (by decide)⟩

unseal Rat.mul Rat.inv Rat.add Rat.sub in
/-- Counterexample to C5 as stated: a stackup whose single layer sits at
lower elevation 1 (thickness 1) comes back from a double flip at lower
elevation 0 — a shift of a full meter, beyond any floating-point
tolerance. -/
theorem flip_design_not_involution :
    exLayerA.lowerElevation = 1 ∧
    ((flip_design { layers := [exLayerA], mode := .laminate }).bind
        flip_design).map
        (fun lc => lc.layers.map (fun l => (l.name, l.lowerElevation)))
      = some [("A", 0)] ∧
    (1 : ℚ) ≠ 0 := by
  decide

lemma le_foldl_maxStep (xs : List Layer) : ∀ (s : ℚ), s ≤ xs.foldl maxStep s := by
  induction xs with
  | nil => intro s; exact le_refl s
  | cons x xs ih =>
    intro s
    rw [List.foldl_cons]
    refine le_trans ?_ (ih (maxStep s x))
    unfold maxStep
    split
    · exact le_max_left _ _
    · exact le_refl s

lemma foldl_maxStep_ge (xs : List Layer) : ∀ (s : ℚ) (l : Layer), l ∈ xs →
    (l.isStackup && !(containsRadBox l.name)) = true →
    max (l.lowerElevation * 1000000) (l.upperElevation * 1000000)
      ≤ xs.foldl maxStep s := by
  induction xs with
  | nil => intro s l hl; simp at hl
  | cons x xs ih =>
    intro s l hl hg
    rw [List.foldl_cons]
    rcases List.mem_cons.mp hl with h | h
    · subst h
      refine le_trans ?_ (le_foldl_maxStep xs (maxStep s l))
      unfold maxStep
      rw [if_pos hg]
      exact le_max_right _ _
    · exact ih _ l h hg

lemma foldl_maxStep_cases (xs : List Layer) : ∀ (s : ℚ),
    xs.foldl maxStep s = s ∨ ∃ l ∈ xs,
      (l.isStackup && !(containsRadBox l.name)) = true ∧
      xs.foldl maxStep s
        = max (l.lowerElevation * 1000000) (l.upperElevation * 1000000) := by
  induction xs with
  | nil => intro s; exact Or.inl rfl
  | cons x xs ih =>
    intro s
    rw [List.foldl_cons]
    rcases ih (maxStep s x) with h | ⟨l, hl, hg, he⟩
    · rw [h]
      unfold maxStep
      by_cases hgx : (x.isStackup && !(containsRadBox x.name)) = true
      · rw [if_pos hgx]
        rcases max_choice s (max (x.lowerElevation * 1000000)
          (x.upperElevation * 1000000)) with h1 | h1
        · exact Or.inl h1
        · exact Or.inr ⟨x, List.mem_cons_self x xs, hgx, h1⟩
      · rw [if_neg hgx]
        exact Or.inl rfl
    · exact Or.inr ⟨l, List.mem_cons_of_mem x hl, hg, he⟩

lemma filter_vias_nil (ls : List Layer)
    (h : ∀ l ∈ ls, l.isStackup = true → l.isVia = false) :
    ls.filter (fun l => l.isStackup && l.isVia) = [] := by
  rw [List.filter_eq_nil_iff]
  intro a ha
  by_cases hs : a.isStackup = true
  · rw [hs, h a ha hs]
    simp
  · have hs' : a.isStackup = false := by
      cases h' : a.isStackup
      · rfl
      · exact absurd h' hs
    rw [hs']
    simp

/-- Claim C5, amended: `flip_design` is an involution (exactly, in exact
arithmetic) on stackups without via layers and `"RadBox"`-named layers,
with nonnegative thicknesses, nonnegative lower elevations, a bottom
stackup layer at elevation 0, and layer associations that are Top or
Bottom.  When the bottom of the stack is not at elevation 0 the double
flip shifts the layers (see the counterexample), so the claim's
universal statement fails. -/
theorem flip_design_involutive_grounded (lc : LayerCollection)
    (H : ∀ l ∈ lc.layers, l.isStackup = true →
      l.isVia = false ∧ containsRadBox l.name = false ∧ 0 ≤ l.thickness ∧
      0 ≤ l.lowerElevation ∧
      (l.assoc = TopBottomAssoc.topAssoc ∨ l.assoc = TopBottomAssoc.bottomAssoc))
    (H0 : ∃ l ∈ lc.layers, l.isStackup = true ∧ l.lowerElevation = 0) :
    ∃ lc' lc'', flip_design lc = some lc' ∧ flip_design lc' = some lc'' ∧
      (∀ l ∈ lc.layers, l.isStackup = true →
        ∃ l'' ∈ lc''.layers, l''.name = l.name ∧
          l''.lowerElevation = l.lowerElevation ∧
          l''.thickness = l.thickness ∧ l''.assoc = l.assoc) ∧
      (∀ l ∈ lc.layers, l.isStackup = false → l ∈ lc''.layers) := by
  have h1 := flip_design_no_vias lc
    (filter_vias_nil lc.layers (fun l hl hs => (H l hl hs).1))
  set M := maxElevationUm lc.layers with hMdef
  set mains := lc.layers.filter
    (fun l => l.isStackup && !(containsRadBox l.name) && !l.isVia) with hmainsdef
  set NS := lc.layers.filter (fun l => !l.isStackup) with hNSdef
  set NM := mains.foldl
    (fun acc l => addStackupLayerAtElevation acc (flipLayer M l)) [] with hNMdef
  have hNMmem : ∀ x, x ∈ NM ↔ ∃ l ∈ mains, x = flipLayer M l := by
    intro x
    rw [hNMdef, mem_foldl_addAtElevation]
    simp
  have hmains_prop : ∀ l ∈ mains, l ∈ lc.layers ∧ l.isStackup = true := by
    intro l hl
    rw [hmainsdef] at hl
    obtain ⟨h1', h2'⟩ := List.mem_filter.mp hl
    refine ⟨h1', ?_⟩
    cases h3 : l.isStackup
    · rw [h3] at h2'
      simp at h2'
    · rfl
  have hstack_mains : ∀ l ∈ lc.layers, l.isStackup = true → l ∈ mains := by
    intro l hl hs
    obtain ⟨hv, hrb, _, _, _⟩ := H l hl hs
    rw [hmainsdef]
    refine List.mem_filter.mpr ⟨hl, ?_⟩
    rw [hs, hrb, hv]
    rfl
  have hM0 : 0 ≤ M := le_foldl_maxStep lc.layers 0
  have hbound : ∀ l ∈ lc.layers, l.isStackup = true →
      l.lowerElevation * 1000000 ≤ M ∧ l.upperElevation * 1000000 ≤ M := by
    intro l hl hs
    obtain ⟨_, hrb, _, _, _⟩ := H l hl hs
    have hg : (l.isStackup && !(containsRadBox l.name)) = true := by
      rw [hs, hrb]
      rfl
    have hb := foldl_maxStep_ge lc.layers 0 l hl hg
    exact ⟨le_trans (le_max_left _ _) hb, le_trans (le_max_right _ _) hb⟩
  have hflip_lower_mul : ∀ l : Layer,
      (flipLayer M l).lowerElevation * 1000000 = M - l.upperElevation * 1000000 := by
    intro l
    show ((M - l.upperElevation * 1000000) / 1000000) * 1000000 = _
    field_simp
  have hflip_upper_mul : ∀ l : Layer,
      (flipLayer M l).upperElevation * 1000000 = M - l.lowerElevation * 1000000 := by
    intro l
    show ((M - l.upperElevation * 1000000) / 1000000 + l.thickness) * 1000000 = _
    rw [show l.upperElevation = l.lowerElevation + l.thickness from rfl]
    field_simp
    ring
  have hL1 : ∀ x ∈ NM ++ NS, x.isStackup = true →
      ∃ l ∈ mains, x = flipLayer M l := by
    intro x hx hxs
    rcases List.mem_append.mp hx with h | h
    · exact (hNMmem x).mp h
    · exfalso
      rw [hNSdef] at h
      have := (List.mem_filter.mp h).2
      rw [hxs] at this
      simp at this
  have hnovia2 : (NM ++ NS).filter (fun l => l.isStackup && l.isVia) = [] := by
    apply filter_vias_nil
    intro x hx hxs
    obtain ⟨l, hl, he⟩ := hL1 x hx hxs
    obtain ⟨hlm, hls⟩ := hmains_prop l hl
    subst he
    show l.isVia = false
    exact (H l hlm hls).1
  have h2 := flip_design_no_vias ⟨NM ++ NS, lc.mode⟩ hnovia2
  have hM2 : maxElevationUm (NM ++ NS) = M := by
    apply le_antisymm
    · rcases foldl_maxStep_cases (NM ++ NS) 0 with h | ⟨x, hx, hg, he⟩
      · rw [show maxElevationUm (NM ++ NS) = (NM ++ NS).foldl maxStep 0 from rfl, h]
        exact hM0
      · rw [show maxElevationUm (NM ++ NS) = (NM ++ NS).foldl maxStep 0 from rfl, he]
        have hxs : x.isStackup = true := by
          cases hxx : x.isStackup
          · rw [hxx] at hg
            simp at hg
          · rfl
        obtain ⟨l, hl, hex⟩ := hL1 x hx hxs
        obtain ⟨hlm, hls⟩ := hmains_prop l hl
        obtain ⟨_, _, ht, hlow, _⟩ := H l hlm hls
        subst hex
        apply max_le
        · rw [hflip_lower_mul l]
          have hu : (0 : ℚ) ≤ l.upperElevation * 1000000 := by
            have h5 : (0 : ℚ) ≤ l.upperElevation := by
              show (0 : ℚ) ≤ l.lowerElevation + l.thickness
              linarith
            nlinarith
          linarith
        · rw [hflip_upper_mul l]
          have hu : (0 : ℚ) ≤ l.lowerElevation * 1000000 := by nlinarith
          linarith
    · obtain ⟨l0, hl0mem, hl0s, hl0z⟩ := H0
      have hl0main : l0 ∈ mains := hstack_mains l0 hl0mem hl0s
      have hfl0 : flipLayer M l0 ∈ NM ++ NS :=
        List.mem_append_left _ ((hNMmem _).mpr ⟨l0, hl0main, rfl⟩)
      obtain ⟨_, hrb0, ht0, _, _⟩ := H l0 hl0mem hl0s
      have hg0 : ((flipLayer M l0).isStackup &&
          !(containsRadBox (flipLayer M l0).name)) = true := by
        show (l0.isStackup && !(containsRadBox l0.name)) = true
        rw [hl0s, hrb0]
        rfl
      have hb := foldl_maxStep_ge (NM ++ NS) 0 (flipLayer M l0) hfl0 hg0
      have hup : (flipLayer M l0).upperElevation * 1000000 = M := by
        rw [hflip_upper_mul l0, hl0z]
        ring
      rw [hup] at hb
      exact le_trans (le_max_right _ _) hb
  refine ⟨⟨NM ++ NS, lc.mode⟩, _, h1, h2, ?_, ?_⟩
  · intro l hl hs
    obtain ⟨hv, hrb, ht, hlow, hassoc⟩ := H l hl hs
    have hlmain : l ∈ mains := hstack_mains l hl hs
    have hfl : flipLayer M l ∈ NM ++ NS :=
      List.mem_append_left _ ((hNMmem _).mpr ⟨l, hlmain, rfl⟩)
    have hfl2 : flipLayer M l ∈ (NM ++ NS).filter
        (fun x => x.isStackup && !(containsRadBox x.name) && !x.isVia) := by
      refine List.mem_filter.mpr ⟨hfl, ?_⟩
      show (l.isStackup && !(containsRadBox l.name) && !l.isVia) = true
      rw [hs, hrb, hv]
      rfl
    refine ⟨flipLayer (maxElevationUm (NM ++ NS)) (flipLayer M l),
      ?_, rfl, ?_, rfl, ?_⟩
    · apply List.mem_append_left
      exact (mem_foldl_addAtElevation _ _ _ _).mpr
        (Or.inr ⟨flipLayer M l, hfl2, rfl⟩)
    · rw [hM2]
      show (M - ((M - l.upperElevation * 1000000) / 1000000 + l.thickness)
          * 1000000) / 1000000 = l.lowerElevation
      rw [show l.upperElevation = l.lowerElevation + l.thickness from rfl]
      field_simp
      ring
    · show flipAssoc (flipAssoc l.assoc) = l.assoc
      rcases hassoc with h | h <;> rw [h] <;> rfl
  · intro l hl hs
    have hns : l ∈ NS := by
      rw [hNSdef]
      refine List.mem_filter.mpr ⟨hl, ?_⟩
      rw [hs]
      rfl
    apply List.mem_append_right
    refine List.mem_filter.mpr ⟨List.mem_append_right _ hns, ?_⟩
    rw [hs]
    rfl

unseal Rat.mul Rat.inv Rat.add Rat.sub in
/-- Witness for the amended C5 on a grounded two-layer stackup. -/
theorem flip_design_involutive_grounded_w :
    ∃ lc' lc'', flip_design exGoodLc = some lc' ∧ flip_design lc' = some lc'' ∧
      (∀ l ∈ exGoodLc.layers, l.isStackup = true →
        ∃ l'' ∈ lc''.layers, l''.name = l.name ∧
          l''.lowerElevation = l.lowerElevation ∧
          l''.thickness = l.thickness ∧ l''.assoc = l.assoc) ∧
      (∀ l ∈ exGoodLc.layers, l.isStackup = false → l ∈ lc''.layers) :=
  flip_design_involutive_grounded exGoodLc (by decide) (by decide)

end PyaedtEdb
